import Mathlib

/-!
Shallow embedding of the io_uring detector (`src/main.rs`): the capability
probe around the raw `io_uring_setup` system call, the feature-flag decoding
table, and the `/proc` scanner that correlates processes with open io_uring
descriptors.  Strings are modelled as lists of characters so that every
operation computes by structural recursion.
-/

namespace Detector

/-- Strings of the modelled program, as character lists. -/
abbrev Str := List Char

/-- Characters of a Lean string literal, used to write `Str` constants. -/
def str (s : String) : Str := s.data

/-- Splitter underlying Rust `str::split(sep)` and `str::split_whitespace`:
splits at every character satisfying `p`, keeping empty fragments. -/
def splitByPred (p : Char → Bool) : Str → List Str
  | [] => [[]]
  | c :: rest =>
    if p c then [] :: splitByPred p rest
    else
      match splitByPred p rest with
      | [] => [[c]]
      | s :: ss => (c :: s) :: ss

/-- Rust `str::split(sep)` for a single separator character. -/
def splitOnChar (sep : Char) (s : Str) : List Str :=
  splitByPred (fun c => c == sep) s

/-- Rust `str::split_whitespace`: whitespace-separated tokens, empties dropped. -/
def split_whitespace (s : Str) : List Str :=
  (splitByPred Char.isWhitespace s).filter (fun t => !t.isEmpty)

/-- Rust `str::lines`: split at newlines, drop the optional final empty line,
strip one trailing carriage return from each line. -/
def rustLines (s : Str) : List Str :=
  let ls := splitOnChar '\n' s
  let ls := if ls.getLast? = some [] then ls.dropLast else ls
  ls.map (fun l => if l.getLast? = some '\r' then l.dropLast else l)

/-- Rust `str::trim`: remove leading and trailing whitespace. -/
def trimStr (s : Str) : Str :=
  ((s.dropWhile Char.isWhitespace).reverse.dropWhile Char.isWhitespace).reverse

/-- Value of an all-digit, nonempty character list; `none` otherwise. -/
def digitsToNat (l : Str) : Option Nat :=
  if l.isEmpty then none
  else if l.all Char.isDigit then
    some (l.foldl (fun n c => 10 * n + (c.toNat - 48)) 0)
  else none

/-- Rust `str::parse::<uN>()`: an optional leading plus sign, then digits,
rejecting values outside the `width`-bit range. -/
def parseUnsigned (width : Nat) (s : Str) : Option Nat :=
  let t := if s.head? = some '+' then s.tail else s
  match digitsToNat t with
  | some n => if n < 2 ^ width then some n else none
  | none => none

/-- Substring containment, Rust `str::contains(pat)`. -/
def strContains (s pat : Str) : Bool :=
  match s with
  | [] => pat.isEmpty
  | _ :: rest => pat.isPrefixOf s || strContains rest pat

/-- Submission-queue ring offsets (`IoSqringOffsets`, `#[repr(C)]`). -/
structure IoSqringOffsets where
  head : Nat
  tail : Nat
  ring_mask : Nat
  ring_entries : Nat
  flags : Nat
  dropped : Nat
  array : Nat
  resv1 : Nat
  resv2 : Nat
  deriving DecidableEq

/-- Completion-queue ring offsets (`IoCqringOffsets`, `#[repr(C)]`). -/
structure IoCqringOffsets where
  head : Nat
  tail : Nat
  ring_mask : Nat
  ring_entries : Nat
  overflow : Nat
  cqes : Nat
  flags : Nat
  resv1 : Nat
  resv2 : Nat
  deriving DecidableEq

/-- Kernel parameter block (`IoUringParams`, `#[repr(C)]`), written by the
kernel during `io_uring_setup`. -/
structure IoUringParams where
  sq_entries : Nat
  cq_entries : Nat
  flags : Nat
  sq_thread_cpu : Nat
  sq_thread_idle : Nat
  features : Nat
  wq_fd : Nat
  resv : Nat × Nat × Nat
  sq_off : IoSqringOffsets
  cq_off : IoCqringOffsets
  deriving DecidableEq

/-- The zero-initialized parameter block (`Default::default()`). -/
def zeroParams : IoUringParams :=
  ⟨0, 0, 0, 0, 0, 0, 0, (0, 0, 0), ⟨0, 0, 0, 0, 0, 0, 0, 0, 0⟩,
    ⟨0, 0, 0, 0, 0, 0, 0, 0, 0⟩⟩

/-- Linux error number for "function not implemented" (`libc::ENOSYS`). -/
def ENOSYS : Nat := 38

/-- Behaviour of the kernel at the `io_uring_setup` call boundary: the raw
return value, the last-error code it leaves when the return is negative, and
the parameter block it populates when the return is non-negative. -/
structure SetupOutcome where
  ret : Int
  errno : Nat
  params : IoUringParams

/-- `detect_io_uring_support`, with the process's set of open kernel handles
threaded explicitly: a non-negative return first adds the granted handle to
the open set (the kernel handed it out) and then removes it again
(`libc::close(ret)`) before returning `Ok(Some(params))`; a negative return
consults the last-error code: `ENOSYS` gives `Ok(None)`, anything else is
surfaced as `Err` with that code. -/
def detect_io_uring_support (o : SetupOutcome) (openFds : List Int) :
    Except Nat (Option IoUringParams) × List Int :=
  if 0 ≤ o.ret then
    (Except.ok (some o.params), (o.ret :: openFds).erase o.ret)
  else if o.errno = ENOSYS then
    (Except.ok none, openFds)
  else
    (Except.error o.errno, openFds)

/-- The fixed feature table `IO_URING_FEATURES`: bit masks paired with
capability names, in ascending bit order. -/
def IO_URING_FEATURES : List (Nat × Str) :=
  [(1 <<< 0, str "IORING_FEAT_SINGLE_MMAP"),
   (1 <<< 1, str "IORING_FEAT_NODROP"),
   (1 <<< 2, str "IORING_FEAT_SUBMIT_STABLE"),
   (1 <<< 3, str "IORING_FEAT_RW_CUR_POS"),
   (1 <<< 4, str "IORING_FEAT_CUR_PERSONALITY"),
   (1 <<< 5, str "IORING_FEAT_FAST_POLL"),
   (1 <<< 6, str "IORING_FEAT_POLL_32BITS"),
   (1 <<< 7, str "IORING_FEAT_SQPOLL_NONFIXED"),
   (1 <<< 8, str "IORING_FEAT_ENTER_EXT_ARG"),
   (1 <<< 9, str "IORING_FEAT_REG_RW"),
   (1 <<< 10, str "IORING_FEAT_SAFE_LINK"),
   (1 <<< 11, str "IORING_FEAT_FAST_POLL_FULL"),
   (1 <<< 12, str "IORING_FEAT_CQE_SKIP")]

/-- Selection loop of `print_io_uring_features`, generalized over the table:
the names whose mask intersects the feature word, in table order. -/
def describeWith (table : List (Nat × Str)) (features : Nat) : List Str :=
  (table.filter (fun p => features &&& p.1 != 0)).map Prod.snd

/-- The spec's `describe`: feature decoding against the fixed table. -/
def describe (features : Nat) : List Str :=
  describeWith IO_URING_FEATURES features

/-- `print_io_uring_features`: the capability names the function prints for a
populated parameter block, in print order. -/
def print_io_uring_features (params : IoUringParams) : List Str :=
  describeWith IO_URING_FEATURES params.features

/-- Memory snapshot (`MemoryInfo`): virtual and resident sizes in kB, each
optional. -/
structure MemoryInfo where
  virtual_memory : Option Nat
  resident_memory : Option Nat
  deriving DecidableEq

/-- The per-process views of the proc pseudo-filesystem that
`get_process_info` reads: `comm`, the `exe` symbolic link target, the
`cmdline` blob, the `maps` text and the `status` text.  `none` models a
failing read. -/
structure ProcView where
  comm : Option Str
  exe : Option Str
  cmdline : Option Str
  maps : Option Str
  status : Option Str
  deriving DecidableEq

/-- Process record (`ProcessInfo`). -/
structure ProcessInfo where
  name : Str
  exe_path : Option Str
  cmdline : Option (List Str)
  memory_status : Option MemoryInfo
  is_in_memory : Bool
  deriving DecidableEq

/-- `get_process_name`: the `comm` content with surrounding whitespace
trimmed, or `none` when the read fails. -/
def get_process_name (v : ProcView) : Option Str :=
  v.comm.map trimStr

/-- Command-line parsing step of `get_process_info`: split the blob on the
null byte, drop empty fragments, and keep the result only when nonempty. -/
def parse_cmdline (blob : Str) : Option (List Str) :=
  let args := (splitOnChar '\x00' blob).filter (fun s => !s.isEmpty)
  if !args.isEmpty then some args else none

/-- One iteration of the status-line loop in `get_process_info`: a line
starting with `VmSize:` (re)assigns the virtual size from its second
whitespace token, a line starting with `VmRSS:` likewise (re)assigns the
resident size; every other line leaves the record unchanged. -/
def memStep (mi : MemoryInfo) (line : Str) : MemoryInfo :=
  if List.isPrefixOf (str "VmSize:") line then
    match (split_whitespace line)[1]? with
    | some size => { mi with virtual_memory := parseUnsigned 64 size }
    | none => mi
  else if List.isPrefixOf (str "VmRSS:") line then
    match (split_whitespace line)[1]? with
    | some size => { mi with resident_memory := parseUnsigned 64 size }
    | none => mi
  else mi

/-- The status-text loop of `get_process_info`, starting from the default
(all-absent) record. -/
def parseMemoryStatus (status : Str) : MemoryInfo :=
  (rustLines status).foldl memStep ⟨none, none⟩

/-- The memory-backed heuristic's per-line test in `get_process_info`. -/
def isInMemoryLine (line : Str) : Bool :=
  strContains line (str "memfd:") || strContains line (str "anon_inode:") ||
    strContains line (str "(deleted)")

/-- `get_process_info`: assembles the process record from the per-process
views.  The name falls back to `<unknown>`; the executable path and command
line are independent of the other reads; the memory heuristic and the status
parse are both nested under a successful `maps` read, with the status parse
further nested under a successful `status` read, exactly as in the source. -/
def get_process_info (v : ProcView) : ProcessInfo :=
  let name := (get_process_name v).getD (str "<unknown>")
  let exe_path := v.exe
  let cmdline := v.cmdline.bind parse_cmdline
  match v.maps with
  | some maps =>
    let inMem := (rustLines maps).any isInMemoryLine
    match v.status with
    | some st => ⟨name, exe_path, cmdline, some (parseMemoryStatus st), inMem⟩
    | none => ⟨name, exe_path, cmdline, none, inMem⟩
  | none => ⟨name, exe_path, cmdline, none, false⟩

/-- The proc pseudo-filesystem as the scanner sees it: the top-level
directory listing (`none` models a failing `read_dir("/proc")`), the
per-process descriptor-directory listing, the per-descriptor link target,
and the per-process metadata views. -/
structure ProcFS where
  procEntries : Option (List Str)
  fdDir : Nat → Option (List Str)
  fdLink : Nat → Str → Option Str
  view : Nat → ProcView

/-- One reported process: its id, the name of the matching descriptor entry,
and the extracted metadata. -/
structure ScanRecord where
  pid : Nat
  fdName : Str
  info : ProcessInfo
  deriving DecidableEq

/-- The anonymous-inode naming pattern the scanner matches against. -/
def ioUringPattern : Str := str "anon_inode:[io_uring]"

/-- Whether a descriptor entry of a process resolves to an io_uring link
target: the link must be readable and contain the pattern. -/
def fdMatches (fs : ProcFS) (pid : Nat) (fd : Str) : Bool :=
  match fs.fdLink pid fd with
  | some target => strContains target ioUringPattern
  | none => false

/-- Inner descriptor loop of `check_io_uring_usage`: walk the descriptor
entries in order; an unreadable link is skipped; the first entry whose link
target contains the pattern produces the process record and stops the loop
(the `break`). -/
def scanFds (fs : ProcFS) (pid : Nat) : List Str → Option ScanRecord
  | [] => none
  | fd :: rest =>
    match fs.fdLink pid fd with
    | some target =>
      if strContains target ioUringPattern then
        some ⟨pid, fd, get_process_info (fs.view pid)⟩
      else scanFds fs pid rest
    | none => scanFds fs pid rest

/-- Per-entry body of the outer loop of `check_io_uring_usage`: entries that
do not parse as a 32-bit process id are skipped, an unlistable descriptor
directory is skipped, otherwise the descriptor loop runs. -/
def scanProc (fs : ProcFS) (entry : Str) : Option ScanRecord :=
  match parseUnsigned 32 entry with
  | some pid =>
    match fs.fdDir pid with
    | some fds => scanFds fs pid fds
    | none => none
  | none => none

/-- The outer loop of `check_io_uring_usage` over a given entry list. -/
def scanEntries (fs : ProcFS) (entries : List Str) : List ScanRecord :=
  entries.filterMap (scanProc fs)

/-- `check_io_uring_usage`: fails exactly when the top-level proc listing
fails (the sole `?` in the function); otherwise returns the records found. -/
def check_io_uring_usage (fs : ProcFS) : Except Unit (List ScanRecord) :=
  match fs.procEntries with
  | none => Except.error ()
  | some entries => Except.ok (scanEntries fs entries)

/-- The environment `main` runs against: the `uname` outcome, the kernel's
behaviour at the setup call, the proc filesystem, and the initially open
kernel handles of the process. -/
structure World where
  unameErrno : Option Nat
  setup : SetupOutcome
  fs : ProcFS
  openFds : List Int

/-- Overall outcome of `main`: a propagated system error (from `uname` or
the probe), a scan failure, the unsupported terminal state (which carries no
process records), or full support with decoded features and scan records. -/
inductive MainResult where
  | fatal (errno : Nat)
  | scanFatal (featureNames : List Str)
  | unsupported
  | supported (featureNames : List Str) (records : List ScanRecord)
  deriving DecidableEq

/-- `main`, paired with a flag recording whether the scan step was invoked:
`uname` errors and probe errors propagate; an unsupported probe returns
early; only a supported probe reaches `check_io_uring_usage`. -/
def mainRun (w : World) : MainResult × Bool :=
  match w.unameErrno with
  | some e => (MainResult.fatal e, false)
  | none =>
    match (detect_io_uring_support w.setup w.openFds).1 with
    | Except.error e => (MainResult.fatal e, false)
    | Except.ok none => (MainResult.unsupported, false)
    | Except.ok (some params) =>
      match check_io_uring_usage w.fs with
      | Except.error _ => (MainResult.scanFatal (print_io_uring_features params), true)
      | Except.ok rs => (MainResult.supported (print_io_uring_features params) rs, true)

/-- A per-process view with every read failing. -/
def emptyView : ProcView := ⟨none, none, none, none, none⟩

/-- Concrete filesystem fixture: two listed processes, of which process 2
holds an io_uring descriptor named `4` after a non-matching descriptor. -/
def fsW : ProcFS :=
  { procEntries := some [str "1", str "2", str "self"]
    fdDir := fun pid => if pid = 2 then some [str "3", str "4"] else none
    fdLink := fun pid fd =>
      if pid = 2 ∧ fd = str "4" then some (str "anon_inode:[io_uring]")
      else if pid = 2 ∧ fd = str "3" then some (str "/dev/null")
      else none
    view := fun _ => emptyView }

/-- Concrete filesystem fixture whose top-level listing fails. -/
def fsBroken : ProcFS :=
  { procEntries := none
    fdDir := fun _ => none
    fdLink := fun _ _ => none
    view := fun _ => emptyView }

/-- Claim C1: on a negative setup return, an `ENOSYS` last-error code makes
the probe return the unsupported outcome `Ok(None)` — never an error and
never a populated parameter block — while any other last-error code is
surfaced unchanged as a typed error, in a single pass with no retry. -/
theorem c1_probe_negative_classification (o : SetupOutcome) (openFds : List Int)
    (hneg : o.ret < 0) :
    (o.errno = ENOSYS →
      (detect_io_uring_support o openFds).1 = Except.ok none)
    ∧ (o.errno ≠ ENOSYS →
      (detect_io_uring_support o openFds).1 = Except.error o.errno) := by
  have h0 : ¬ (0 ≤ o.ret) := by omega
  constructor
  · intro he
    simp [detect_io_uring_support, h0, he]
  · intro he
    simp [detect_io_uring_support, h0, he]

/-- Witness for C1 at concrete setup outcomes: return `-1` with `ENOSYS`
gives `Ok(None)`; return `-1` with error code 13 gives `Err(13)`. -/
theorem c1_probe_negative_classification_wit :
    (detect_io_uring_support ⟨-1, ENOSYS, zeroParams⟩ []).1 = Except.ok none
    ∧ (detect_io_uring_support ⟨-1, 13, zeroParams⟩ []).1 = Except.error 13 :=
  ⟨(c1_probe_negative_classification ⟨-1, ENOSYS, zeroParams⟩ [] (by decide)).1 rfl,
   (c1_probe_negative_classification ⟨-1, 13, zeroParams⟩ [] (by decide)).2 (by decide)⟩

/-- Claim C9: on a non-negative setup return the probe closes the granted
kernel handle before returning — the set of open handles after the call
equals the set before it — and returns the supported outcome carrying the
kernel-populated parameter block (hence its feature field). -/
theorem c9_probe_releases_handle (o : SetupOutcome) (openFds : List Int)
    (h : 0 ≤ o.ret) :
    detect_io_uring_support o openFds = (Except.ok (some o.params), openFds) := by
  simp [detect_io_uring_support, h]

/-- Witness for C9: a probe granted handle 3 while handle 7 is already open
returns supported and leaves exactly handle 7 open. -/
theorem c9_probe_releases_handle_wit :
    detect_io_uring_support ⟨3, 0, zeroParams⟩ [7] =
      (Except.ok (some zeroParams), [7]) :=
  c9_probe_releases_handle ⟨3, 0, zeroParams⟩ [7] (by decide)

/-- Claim C2: for every 32-bit bitmask, the decoded capability list contains
a name exactly when some table entry carries that name and its mask
intersects the bitmask; the list is a sublist of the table's names (table
order, ascending bit position), so unknown bits are silently ignored; and
against a table with bit 0 = "A" and bit 2 = "C", mask `0b101` decodes to
exactly ["A", "C"]. -/
theorem c2_feature_decoding (m : Nat) (_hm : m < 2 ^ 32) :
    (∀ N, N ∈ describe m ↔
      ∃ mask, (mask, N) ∈ IO_URING_FEATURES ∧ m &&& mask ≠ 0)
    ∧ List.Sublist (describe m) (IO_URING_FEATURES.map Prod.snd)
    ∧ describeWith [(1, str "A"), (4, str "C")] 5 = [str "A", str "C"] := by
  refine ⟨?_, ?_, by decide⟩
  · intro N
    constructor
    · intro hN
      simp only [describe, describeWith, List.mem_map] at hN
      obtain ⟨⟨mask, name⟩, hmem, rfl⟩ := hN
      rw [List.mem_filter] at hmem
      refine ⟨mask, hmem.1, ?_⟩
      simpa using hmem.2
    · rintro ⟨mask, hmem, hbit⟩
      simp only [describe, describeWith, List.mem_map]
      refine ⟨(mask, N), ?_, rfl⟩
      rw [List.mem_filter]
      exact ⟨hmem, by simpa using hbit⟩
  · simp only [describe, describeWith]
    exact List.Sublist.map _ (List.filter_sublist _)

/-- Witness for C2 at mask 5: the bit-0 name is decoded, and the two-entry
example table decodes `0b101` to ["A", "C"]. -/
theorem c2_feature_decoding_wit :
    str "IORING_FEAT_SINGLE_MMAP" ∈ describe 5
    ∧ describeWith [(1, str "A"), (4, str "C")] 5 = [str "A", str "C"] :=
  ⟨((c2_feature_decoding 5 (by decide)).1 _).mpr ⟨1, by decide, by decide⟩,
   (c2_feature_decoding 5 (by decide)).2.2⟩

/-- Claim C8: whenever the probe reports the facility unsupported (negative
setup return with `ENOSYS`), `main` never invokes the scan step and its
overall result is exactly the unsupported outcome, which carries no process
records. -/
theorem c8_unsupported_skips_scan (w : World) (hu : w.unameErrno = none)
    (hneg : w.setup.ret < 0) (he : w.setup.errno = ENOSYS) :
    mainRun w = (MainResult.unsupported, false) := by
  have h0 : ¬ (0 ≤ w.setup.ret) := by omega
  simp [mainRun, hu, detect_io_uring_support, h0, he]

/-- Witness for C8 on a concrete world whose setup call fails with `ENOSYS`:
the run ends unsupported and the scan-invoked flag stays false. -/
theorem c8_unsupported_skips_scan_wit :
    mainRun ⟨none, ⟨-1, ENOSYS, zeroParams⟩, fsW, []⟩ =
      (MainResult.unsupported, false) :=
  c8_unsupported_skips_scan ⟨none, ⟨-1, ENOSYS, zeroParams⟩, fsW, []⟩ rfl
    (by decide) rfl

theorem scanFds_eq_find (fs : ProcFS) (pid : Nat) (fds : List Str) :
    scanFds fs pid fds =
      (fds.find? (fdMatches fs pid)).map
        (fun f => ⟨pid, f, get_process_info (fs.view pid)⟩) := by
  induction fds with
  | nil => rfl
  | cons fd rest ih =>
    cases hl : fs.fdLink pid fd with
    | none =>
      have hm : fdMatches fs pid fd = false := by simp [fdMatches, hl]
      simp [scanFds, hl, List.find?_cons, hm, ih]
    | some target =>
      cases hc : strContains target ioUringPattern with
      | true =>
        have hm : fdMatches fs pid fd = true := by simp [fdMatches, hl, hc]
        simp [scanFds, hl, hc, List.find?_cons, hm]
      | false =>
        have hm : fdMatches fs pid fd = false := by simp [fdMatches, hl, hc]
        simp [scanFds, hl, hc, List.find?_cons, hm, ih]

theorem find_first_match {α : Type} (p : α → Bool) (l1 : List α) (a : α)
    (l2 : List α) (h1 : ∀ x ∈ l1, p x = false) (ha : p a = true) :
    (l1 ++ a :: l2).find? p = some a := by
  induction l1 with
  | nil => simp [List.find?_cons, ha]
  | cons b bs ih =>
    have hb : p b = false := h1 b (by simp)
    simp only [List.cons_append, List.find?_cons, hb]
    exact ih (fun x hx => h1 x (by simp [hx]))

theorem scanProc_pid (fs : ProcFS) (e : Str) (r : ScanRecord)
    (h : scanProc fs e = some r) : parseUnsigned 32 e = some r.pid := by
  cases hp : parseUnsigned 32 e with
  | none =>
    simp only [scanProc, hp] at h
    exact Option.noConfusion h
  | some pid =>
    simp only [scanProc, hp] at h
    cases hd : fs.fdDir pid with
    | none =>
      simp only [hd] at h
      exact Option.noConfusion h
    | some fds =>
      simp only [hd, scanFds_eq_find] at h
      obtain ⟨f, _, rfl⟩ := Option.map_eq_some'.mp h
      rfl

theorem filterMap_scan_filter_nil (fs : ProcFS) (pid : Nat) :
    ∀ entries : List Str, pid ∉ entries.filterMap (parseUnsigned 32) →
    (entries.filterMap (scanProc fs)).filter (fun r => r.pid == pid) = [] := by
  intro entries
  induction entries with
  | nil => intro _; rfl
  | cons a rest ih =>
    intro h
    cases hp : parseUnsigned 32 a with
    | none =>
      have hs : scanProc fs a = none := by unfold scanProc; rw [hp]
      have h' : pid ∉ rest.filterMap (parseUnsigned 32) := by
        rw [List.filterMap_cons, hp] at h; exact h
      rw [List.filterMap_cons, hs]
      exact ih h'
    | some q =>
      have h2 : ¬(pid = q ∨ pid ∈ rest.filterMap (parseUnsigned 32)) := by
        rw [List.filterMap_cons, hp] at h
        simpa [List.mem_cons] using h
      rw [List.filterMap_cons]
      cases hs : scanProc fs a with
      | none => exact ih (fun hmem => h2 (Or.inr hmem))
      | some r =>
        have hr : r.pid = q := by
          have hq := scanProc_pid fs a r hs
          rw [hp] at hq
          exact (Option.some_inj.mp hq).symm
        have hne : (r.pid == pid) = false := by
          rw [hr]
          exact beq_eq_false_iff_ne.mpr (fun hqp => h2 (Or.inl hqp.symm))
        rw [List.filter_cons, hne]
        simp only [Bool.false_eq_true, if_false]
        exact ih (fun hmem => h2 (Or.inr hmem))

theorem scan_filter_single (fs : ProcFS) (pid : Nat) (rec : ScanRecord)
    (hrec : rec.pid = pid) :
    ∀ entries : List Str, (entries.filterMap (parseUnsigned 32)).Nodup →
    ∀ e ∈ entries, parseUnsigned 32 e = some pid → scanProc fs e = some rec →
    (entries.filterMap (scanProc fs)).filter (fun r => r.pid == pid) = [rec] := by
  intro entries
  induction entries with
  | nil => intro _ e he; cases he
  | cons a rest ih =>
    intro hnodup e he hpe hse
    rcases List.mem_cons.mp he with rfl | hmem
    · rw [List.filterMap_cons, hse, List.filter_cons]
      have ht : (rec.pid == pid) = true := by rw [hrec]; exact beq_self_eq_true pid
      rw [ht]
      simp only [if_true]
      have hnr : pid ∉ rest.filterMap (parseUnsigned 32) := by
        rw [List.filterMap_cons, hpe] at hnodup
        exact (List.nodup_cons.mp hnodup).1
      rw [filterMap_scan_filter_nil fs pid rest hnr]
    · have hpin : pid ∈ rest.filterMap (parseUnsigned 32) :=
        List.mem_filterMap.mpr ⟨e, hmem, hpe⟩
      cases hp : parseUnsigned 32 a with
      | none =>
        have hs : scanProc fs a = none := by unfold scanProc; rw [hp]
        have hnodup' : (rest.filterMap (parseUnsigned 32)).Nodup := by
          rw [List.filterMap_cons, hp] at hnodup; exact hnodup
        rw [List.filterMap_cons, hs]
        exact ih hnodup' e hmem hpe hse
      | some q =>
        rw [List.filterMap_cons, hp] at hnodup
        have hq : q ≠ pid := fun hqp =>
          (List.nodup_cons.mp hnodup).1 (hqp ▸ hpin)
        have hnodup' := (List.nodup_cons.mp hnodup).2
        rw [List.filterMap_cons]
        cases hs : scanProc fs a with
        | none => exact ih hnodup' e hmem hpe hse
        | some r =>
          have hr : r.pid = q := by
            have hpq := scanProc_pid fs a r hs
            rw [hp] at hpq
            exact (Option.some_inj.mp hpq).symm
          have hne : (r.pid == pid) = false := by
            rw [hr]; exact beq_eq_false_iff_ne.mpr hq
          rw [List.filter_cons, hne]
          simp only [Bool.false_eq_true, if_false]
          exact ih hnodup' e hmem hpe hse

/-- Claim C3: the scan fails exactly when the top-level process-table
listing fails; a listed process whose scan step fails (unparsable entry or
unlistable descriptor directory) is skipped while the scan of the remaining
entries proceeds and still succeeds; an unlistable descriptor directory
skips the process; an unresolvable descriptor link skips just that
descriptor and the loop continues with the rest. -/
theorem c3_per_process_failures_skipped (fs : ProcFS) :
    ((∃ rs, check_io_uring_usage fs = Except.ok rs) ↔ fs.procEntries ≠ none)
    ∧ (∀ l1 l2 e, fs.procEntries = some (l1 ++ e :: l2) →
        scanProc fs e = none →
        check_io_uring_usage fs = Except.ok (scanEntries fs (l1 ++ l2)))
    ∧ (∀ pid : Nat, ∀ e : Str, parseUnsigned 32 e = some pid →
        fs.fdDir pid = none → scanProc fs e = none)
    ∧ (∀ pid fd rest, fs.fdLink pid fd = none →
        scanFds fs pid (fd :: rest) = scanFds fs pid rest) := by
  refine ⟨?_, ?_, ?_, ?_⟩
  · constructor
    · rintro ⟨rs, hrs⟩ hnone
      rw [check_io_uring_usage, hnone] at hrs
      exact absurd hrs (by simp)
    · intro hne
      cases hp : fs.procEntries with
      | none => exact absurd hp hne
      | some entries =>
        exact ⟨scanEntries fs entries, by rw [check_io_uring_usage, hp]⟩
  · intro l1 l2 e hp hnone
    rw [check_io_uring_usage, hp]
    simp [scanEntries, List.filterMap_append, List.filterMap_cons, hnone]
  · intro pid e hpe hd
    simp only [scanProc, hpe, hd]
  · intro pid fd rest hl
    simp [scanFds, hl]

/-- Witness for C3 on the concrete fixture: entry "1" is skipped because
process 1's descriptor directory is unlistable, and the whole scan still
succeeds, returning exactly the records of the remaining entries. -/
theorem c3_per_process_failures_skipped_wit :
    scanProc fsW (str "1") = none
    ∧ check_io_uring_usage fsW = Except.ok (scanEntries fsW [str "2", str "self"]) :=
  ⟨(c3_per_process_failures_skipped fsW).2.2.1 1 (str "1") (by decide) rfl,
   (c3_per_process_failures_skipped fsW).2.1 [] [str "2", str "self"] (str "1") rfl
     ((c3_per_process_failures_skipped fsW).2.2.1 1 (str "1") (by decide) rfl)⟩

/-- Claim C4: a listed process holding at least one matching descriptor is
reported exactly once — the record list filtered to its id is a singleton —
and the reported record carries the first matching descriptor in enumeration
order, the descriptors after it never being consulted. -/
theorem c4_first_match_reported_once (fs : ProcFS) (entries : List Str)
    (e : Str) (pid : Nat) (l1 : List Str) (fd : Str) (l2 : List Str)
    (hentries : fs.procEntries = some entries)
    (hnodup : (entries.filterMap (parseUnsigned 32)).Nodup)
    (he : e ∈ entries)
    (hpid : parseUnsigned 32 e = some pid)
    (hfds : fs.fdDir pid = some (l1 ++ fd :: l2))
    (hl1 : ∀ f ∈ l1, fdMatches fs pid f = false)
    (hfd : fdMatches fs pid fd = true) :
    ∃ rs, check_io_uring_usage fs = Except.ok rs ∧
      rs.filter (fun r => r.pid == pid) =
        [⟨pid, fd, get_process_info (fs.view pid)⟩] := by
  have hsp : scanProc fs e = some ⟨pid, fd, get_process_info (fs.view pid)⟩ := by
    simp only [scanProc, hpid, hfds, scanFds_eq_find,
      find_first_match _ l1 fd l2 hl1 hfd, Option.map_some']
  refine ⟨scanEntries fs entries, by rw [check_io_uring_usage, hentries], ?_⟩
  exact scan_filter_single fs pid _ rfl entries hnodup e he hpid hsp

/-- Witness for C4 on the concrete fixture: process 2's first matching
descriptor is entry "4" (entry "3" points elsewhere), and process 2 is
reported exactly once with it. -/
theorem c4_first_match_reported_once_wit :
    ∃ rs, check_io_uring_usage fsW = Except.ok rs ∧
      rs.filter (fun r => r.pid == 2) =
        [⟨2, str "4", get_process_info (fsW.view 2)⟩] :=
  c4_first_match_reported_once fsW [str "1", str "2", str "self"] (str "2") 2
    [str "3"] (str "4") [] rfl (by decide) (by decide) (by decide) rfl
    (by decide) (by decide)

theorem splitByPred_all_sep (p : Char → Bool) :
    ∀ l : Str, (∀ c ∈ l, p c = true) → ∀ s ∈ splitByPred p l, s = [] := by
  intro l
  induction l with
  | nil =>
    intro _ s hs
    simpa [splitByPred] using hs
  | cons c rest ih =>
    intro h s hs
    have hc : p c = true := h c (by simp)
    simp only [splitByPred, hc, if_true] at hs
    rcases List.mem_cons.mp hs with rfl | hs'
    · rfl
    · exact ih (fun x hx => h x (by simp [hx])) s hs'

/-- Claim C5: the command-line parse splits the blob on the null byte and
drops all empty fragments — `"foo\0bar\0"` parses to exactly
`["foo", "bar"]` with no trailing empty element, no parsed sequence ever
contains an empty element, and a blob made only of null bytes (or empty)
yields the no-command-line state rather than an empty sequence. -/
theorem c5_cmdline_parse :
    parse_cmdline (str "foo\x00bar\x00") = some [str "foo", str "bar"]
    ∧ (∀ blob : Str, (∀ c ∈ blob, c = '\x00') → parse_cmdline blob = none)
    ∧ (∀ blob args, parse_cmdline blob = some args → [] ∉ args) := by
  refine ⟨by decide, ?_, ?_⟩
  · intro blob h
    have hall : ∀ s ∈ splitOnChar '\x00' blob, s = [] := by
      apply splitByPred_all_sep
      intro c hc
      simp [h c hc]
    have hfil : (splitOnChar '\x00' blob).filter (fun s => !s.isEmpty) = [] := by
      rw [List.filter_eq_nil_iff]
      intro s hs
      rw [hall s hs]
      simp
    simp [parse_cmdline, hfil]
  · intro blob args h hmem
    simp only [parse_cmdline] at h
    cases hb : ((splitOnChar '\x00' blob).filter (fun s => !s.isEmpty)).isEmpty with
    | true => simp [hb] at h
    | false =>
      simp only [hb, Bool.not_false, if_true] at h
      have h' := Option.some_inj.mp h
      rw [← h'] at hmem
      have := (List.mem_filter.mp hmem).2
      simp at this

/-- Witness for C5: the all-null blob parses to the no-command-line state. -/
theorem c5_cmdline_parse_wit : parse_cmdline (str "\x00\x00") = none :=
  c5_cmdline_parse.2.1 (str "\x00\x00") (by decide)

/-- Claim C10: `get_process_info` is total — when every per-process read
fails it still returns a record with the literal `<unknown>` name, absent
executable path, command line and memory footprint, and a false
memory-backed heuristic — and on a successful `comm` read the name is that
content with surrounding whitespace trimmed. -/
theorem c10_process_info_total :
    get_process_info emptyView = ⟨str "<unknown>", none, none, none, false⟩
    ∧ (∀ v : ProcView, ∀ s, v.comm = some s →
        (get_process_info v).name = trimStr s) := by
  refine ⟨by decide, ?_⟩
  intro v s h
  have hn : (get_process_name v).getD (str "<unknown>") = trimStr s := by
    rw [get_process_name, h]
    rfl
  cases hm : v.maps with
  | none => simp [get_process_info, hm, hn]
  | some m =>
    cases hs : v.status with
    | none => simp [get_process_info, hm, hs, hn]
    | some st => simp [get_process_info, hm, hs, hn]

/-- Witness for C10: a `comm` read of `" cat\n"` gives the trimmed name
`"cat"`. -/
theorem c10_process_info_total_wit :
    (get_process_info ⟨some (str " cat\n"), none, none, none, none⟩).name =
      str "cat" := by
  rw [c10_process_info_total.2 ⟨some (str " cat\n"), none, none, none, none⟩
    (str " cat\n") rfl]
  decide

theorem get_process_info_name (v : ProcView) :
    (get_process_info v).name = (get_process_name v).getD (str "<unknown>") := by
  unfold get_process_info
  cases v.maps with
  | none => rfl
  | some m =>
    cases v.status with
    | none => rfl
    | some st => rfl

theorem get_process_info_exe (v : ProcView) :
    (get_process_info v).exe_path = v.exe := by
  unfold get_process_info
  cases v.maps with
  | none => rfl
  | some m =>
    cases v.status with
    | none => rfl
    | some st => rfl

theorem get_process_info_cmdline (v : ProcView) :
    (get_process_info v).cmdline = v.cmdline.bind parse_cmdline := by
  unfold get_process_info
  cases v.maps with
  | none => rfl
  | some m =>
    cases v.status with
    | none => rfl
    | some st => rfl

theorem get_process_info_memory (v : ProcView) :
    (get_process_info v).memory_status =
      (v.maps.bind (fun _ => v.status)).map parseMemoryStatus := by
  unfold get_process_info
  cases v.maps with
  | none => rfl
  | some m =>
    cases v.status with
    | none => rfl
    | some st => rfl

theorem get_process_info_inmem (v : ProcView) :
    (get_process_info v).is_in_memory =
      (v.maps.map (fun m => (rustLines m).any isInMemoryLine)).getD false := by
  unfold get_process_info
  cases v.maps with
  | none => rfl
  | some m =>
    cases v.status with
    | none => rfl
    | some st => rfl

/-- Counterexample to claim C7 as stated: with the same readable status text
(`"VmRSS: 7 kB"`), the memory footprint is extracted when the maps text is
readable but comes out absent when only the maps read fails — so the failure
of the memory-mapping read does suppress the memory-footprint field. -/
theorem c7_maps_failure_suppresses_status :
    (get_process_info ⟨some (str "x"), none, none, none,
        some (str "VmRSS: 7 kB")⟩).memory_status = none
    ∧ (get_process_info ⟨some (str "x"), none, none, some [],
        some (str "VmRSS: 7 kB")⟩).memory_status = some ⟨none, some 7⟩ := by
  constructor
  · rfl
  · decide

/-- Claim C7 amended: the name, executable-path and command-line fields each
depend only on their own source read, and the memory fields depend jointly
on the maps and status reads: when the maps text cannot be read, the memory
footprint is absent and the memory-backed heuristic is false even if the
status text is readable; when the maps text is readable, the footprint is
extracted from the status text independently of the other fields. -/
theorem c7_field_dependencies (v w : ProcView) :
    (v.comm = w.comm → (get_process_info v).name = (get_process_info w).name)
    ∧ (v.exe = w.exe →
        (get_process_info v).exe_path = (get_process_info w).exe_path)
    ∧ (v.cmdline = w.cmdline →
        (get_process_info v).cmdline = (get_process_info w).cmdline)
    ∧ (v.maps = w.maps → v.status = w.status →
        (get_process_info v).memory_status = (get_process_info w).memory_status
        ∧ (get_process_info v).is_in_memory = (get_process_info w).is_in_memory)
    ∧ (v.maps = none → (get_process_info v).memory_status = none)
    ∧ (∀ m st, v.maps = some m → v.status = some st →
        (get_process_info v).memory_status = some (parseMemoryStatus st))
    ∧ (v.maps = none → (get_process_info v).is_in_memory = false) := by
  refine ⟨?_, ?_, ?_, ?_, ?_, ?_, ?_⟩
  · intro h
    rw [get_process_info_name, get_process_info_name, get_process_name,
      get_process_name, h]
  · intro h
    rw [get_process_info_exe, get_process_info_exe, h]
  · intro h
    rw [get_process_info_cmdline, get_process_info_cmdline, h]
  · intro hm hs
    constructor
    · rw [get_process_info_memory, get_process_info_memory, hm, hs]
    · rw [get_process_info_inmem, get_process_info_inmem, hm]
  · intro hm
    rw [get_process_info_memory, hm]
    rfl
  · intro m st hm hs
    rw [get_process_info_memory, hm, hs]
    rfl
  · intro hm
    rw [get_process_info_inmem, hm]
    rfl

/-- Witness for C7 (amended): on a concrete view whose maps read fails while
the status text is readable, the memory footprint is absent and the
memory-backed heuristic is false. -/
theorem c7_field_dependencies_wit :
    (get_process_info ⟨some (str "x"), none, none, none,
        some (str "VmRSS: 7 kB")⟩).memory_status = none
    ∧ (get_process_info ⟨some (str "x"), none, none, none,
        some (str "VmRSS: 7 kB")⟩).is_in_memory = false :=
  ⟨(c7_field_dependencies
      ⟨some (str "x"), none, none, none, some (str "VmRSS: 7 kB")⟩
      emptyView).2.2.2.2.1 rfl,
   (c7_field_dependencies
      ⟨some (str "x"), none, none, none, some (str "VmRSS: 7 kB")⟩
      emptyView).2.2.2.2.2.2 rfl⟩

theorem memStep_resident_of_not (mi : MemoryInfo) (line : Str)
    (h : List.isPrefixOf (str "VmRSS:") line = false) :
    (memStep mi line).resident_memory = mi.resident_memory := by
  unfold memStep
  by_cases h1 : List.isPrefixOf (str "VmSize:") line = true
  · rw [if_pos h1]
    cases hsz : (split_whitespace line)[1]? with
    | none => rfl
    | some sz => rfl
  · rw [if_neg h1, if_neg (by simp [h])]

theorem memStep_virtual_of_not (mi : MemoryInfo) (line : Str)
    (h : List.isPrefixOf (str "VmSize:") line = false) :
    (memStep mi line).virtual_memory = mi.virtual_memory := by
  unfold memStep
  rw [if_neg (by simp [h])]
  by_cases h1 : List.isPrefixOf (str "VmRSS:") line = true
  · rw [if_pos h1]
    cases hsz : (split_whitespace line)[1]? with
    | none => rfl
    | some sz => rfl
  · rw [if_neg h1]

theorem foldl_memStep_resident (l : List Str) :
    ∀ mi : MemoryInfo, (∀ x ∈ l, List.isPrefixOf (str "VmRSS:") x = false) →
    (l.foldl memStep mi).resident_memory = mi.resident_memory := by
  induction l with
  | nil => intro mi _; rfl
  | cons a as ih =>
    intro mi h
    rw [List.foldl_cons, ih (memStep mi a) (fun x hx => h x (by simp [hx]))]
    exact memStep_resident_of_not mi a (h a (by simp))

theorem foldl_memStep_virtual (l : List Str) :
    ∀ mi : MemoryInfo, (∀ x ∈ l, List.isPrefixOf (str "VmSize:") x = false) →
    (l.foldl memStep mi).virtual_memory = mi.virtual_memory := by
  induction l with
  | nil => intro mi _; rfl
  | cons a as ih =>
    intro mi h
    rw [List.foldl_cons, ih (memStep mi a) (fun x hx => h x (by simp [hx]))]
    exact memStep_virtual_of_not mi a (h a (by simp))

theorem memStep_vmrss_line (mi : MemoryInfo) :
    memStep mi (str "VmRSS:    1234 kB") =
      { mi with resident_memory := some 1234 } := rfl

theorem memStep_vmsize_line (mi : MemoryInfo) :
    memStep mi (str "VmSize:    1234 kB") =
      { mi with virtual_memory := some 1234 } := rfl

theorem isPrefixOf_self_append (l t : Str) : List.isPrefixOf l (l ++ t) = true := by
  induction l with
  | nil => simp [List.isPrefixOf]
  | cons c cs ih => simp [List.isPrefixOf, ih]

theorem memStep_vmrss_token (mi : MemoryInfo) (g sz : Str)
    (hsz : (split_whitespace (str "VmRSS:" ++ g))[1]? = some sz) :
    memStep mi (str "VmRSS:" ++ g) =
      { mi with resident_memory := parseUnsigned 64 sz } := by
  have h1 : List.isPrefixOf (str "VmSize:") (str "VmRSS:" ++ g) = false := rfl
  have h2 : List.isPrefixOf (str "VmRSS:") (str "VmRSS:" ++ g) = true :=
    isPrefixOf_self_append (str "VmRSS:") g
  unfold memStep
  rw [if_neg (by simp [h1]), if_pos h2, hsz]

theorem memStep_vmrss_notoken (mi : MemoryInfo) (g : Str)
    (hsz : (split_whitespace (str "VmRSS:" ++ g))[1]? = none) :
    memStep mi (str "VmRSS:" ++ g) = mi := by
  have h1 : List.isPrefixOf (str "VmSize:") (str "VmRSS:" ++ g) = false := rfl
  have h2 : List.isPrefixOf (str "VmRSS:") (str "VmRSS:" ++ g) = true :=
    isPrefixOf_self_append (str "VmRSS:") g
  unfold memStep
  rw [if_neg (by simp [h1]), if_pos h2, hsz]

theorem memStep_vmsize_token (mi : MemoryInfo) (g sz : Str)
    (hsz : (split_whitespace (str "VmSize:" ++ g))[1]? = some sz) :
    memStep mi (str "VmSize:" ++ g) =
      { mi with virtual_memory := parseUnsigned 64 sz } := by
  have h1 : List.isPrefixOf (str "VmSize:") (str "VmSize:" ++ g) = true :=
    isPrefixOf_self_append (str "VmSize:") g
  unfold memStep
  rw [if_pos h1, hsz]

theorem memStep_vmsize_notoken (mi : MemoryInfo) (g : Str)
    (hsz : (split_whitespace (str "VmSize:" ++ g))[1]? = none) :
    memStep mi (str "VmSize:" ++ g) = mi := by
  have h1 : List.isPrefixOf (str "VmSize:") (str "VmSize:" ++ g) = true :=
    isPrefixOf_self_append (str "VmSize:") g
  unfold memStep
  rw [if_pos h1, hsz]

/-- Counterexample to claim C6 as stated: a status block that contains the
line `"VmRSS:    1234 kB"` but also a later malformed `VmRSS:` line parses
to an absent resident-memory field, because each `VmRSS:`-prefixed line
re-assigns the field with its own parse result. -/
theorem c6_later_vmrss_line_overwrites :
    (str "VmRSS:    1234 kB") ∈
      rustLines (str "VmRSS:    1234 kB\nVmRSS: kB")
    ∧ ¬ (parseMemoryStatus
        (str "VmRSS:    1234 kB\nVmRSS: kB")).resident_memory = some 1234 := by
  decide

/-- Claim C6 amended: for a status text block in which at most one line
starts with `VmRSS:` — the case of real status files — the line
`"VmRSS:    1234 kB"` yields resident-memory 1234; no `VmRSS:` line, or a
single malformed one whose magnitude does not parse, yields an absent field
rather than zero; the same holds for `VmSize:` and the virtual-memory field.
(With several `VmRSS:` lines, the last line carrying a second token wins.) -/
theorem c6_memory_status_fields :
    (∀ st l1 l2, rustLines st = l1 ++ (str "VmRSS:    1234 kB") :: l2 →
      (∀ l ∈ l2, List.isPrefixOf (str "VmRSS:") l = false) →
      (parseMemoryStatus st).resident_memory = some 1234)
    ∧ (∀ st, (∀ l ∈ rustLines st, List.isPrefixOf (str "VmRSS:") l = false) →
      (parseMemoryStatus st).resident_memory = none)
    ∧ (∀ st l1 g l2, rustLines st = l1 ++ (str "VmRSS:" ++ g) :: l2 →
      (∀ l ∈ l1, List.isPrefixOf (str "VmRSS:") l = false) →
      (∀ l ∈ l2, List.isPrefixOf (str "VmRSS:") l = false) →
      (∀ sz, (split_whitespace (str "VmRSS:" ++ g))[1]? = some sz →
        parseUnsigned 64 sz = none) →
      (parseMemoryStatus st).resident_memory = none)
    ∧ (∀ st l1 l2, rustLines st = l1 ++ (str "VmSize:    1234 kB") :: l2 →
      (∀ l ∈ l2, List.isPrefixOf (str "VmSize:") l = false) →
      (parseMemoryStatus st).virtual_memory = some 1234)
    ∧ (∀ st, (∀ l ∈ rustLines st, List.isPrefixOf (str "VmSize:") l = false) →
      (parseMemoryStatus st).virtual_memory = none)
    ∧ (∀ st l1 g l2, rustLines st = l1 ++ (str "VmSize:" ++ g) :: l2 →
      (∀ l ∈ l1, List.isPrefixOf (str "VmSize:") l = false) →
      (∀ l ∈ l2, List.isPrefixOf (str "VmSize:") l = false) →
      (∀ sz, (split_whitespace (str "VmSize:" ++ g))[1]? = some sz →
        parseUnsigned 64 sz = none) →
      (parseMemoryStatus st).virtual_memory = none) := by
  refine ⟨?_, ?_, ?_, ?_, ?_, ?_⟩
  · intro st l1 l2 hsplit h2
    rw [parseMemoryStatus, hsplit, List.foldl_append, List.foldl_cons,
      foldl_memStep_resident l2 _ h2, memStep_vmrss_line]
  · intro st h
    rw [parseMemoryStatus, foldl_memStep_resident (rustLines st) _ h]
  · intro st l1 g l2 hsplit h1 h2 hbad
    rw [parseMemoryStatus, hsplit, List.foldl_append, List.foldl_cons,
      foldl_memStep_resident l2 _ h2]
    cases hsz : (split_whitespace (str "VmRSS:" ++ g))[1]? with
    | none =>
      rw [memStep_vmrss_notoken _ g hsz]
      exact foldl_memStep_resident l1 _ h1
    | some sz =>
      rw [memStep_vmrss_token _ g sz hsz, hbad sz hsz]
  · intro st l1 l2 hsplit h2
    rw [parseMemoryStatus, hsplit, List.foldl_append, List.foldl_cons,
      foldl_memStep_virtual l2 _ h2, memStep_vmsize_line]
  · intro st h
    rw [parseMemoryStatus, foldl_memStep_virtual (rustLines st) _ h]
  · intro st l1 g l2 hsplit h1 h2 hbad
    rw [parseMemoryStatus, hsplit, List.foldl_append, List.foldl_cons,
      foldl_memStep_virtual l2 _ h2]
    cases hsz : (split_whitespace (str "VmSize:" ++ g))[1]? with
    | none =>
      rw [memStep_vmsize_notoken _ g hsz]
      exact foldl_memStep_virtual l1 _ h1
    | some sz =>
      rw [memStep_vmsize_token _ g sz hsz, hbad sz hsz]

/-- Witness for C6 (amended) on a concrete status block with one `VmRSS:`
line, one `VmSize:` line and an unrelated line: resident is 1234 and a
block without `VmRSS:` lines gives an absent resident field. -/
theorem c6_memory_status_fields_wit :
    (parseMemoryStatus
      (str "Name:\tcat\nVmSize:    9999 kB\nVmRSS:    1234 kB\n")).resident_memory
        = some 1234
    ∧ (parseMemoryStatus (str "Name:\tcat\n")).resident_memory = none :=
  ⟨c6_memory_status_fields.1
      (str "Name:\tcat\nVmSize:    9999 kB\nVmRSS:    1234 kB\n")
      [str "Name:\tcat", str "VmSize:    9999 kB"] [] (by decide) (by decide),
   c6_memory_status_fields.2.1 (str "Name:\tcat\n") (by decide)⟩

end Detector
